import Mathlib

/-!
Verification development for the THz raster-scan data-acquisition program.

The definitions below are a shallow embedding of the program's core:
the per-axis motion-controller protocol (`src/core/motor_controller.py`),
the scan orchestration loop (`src/core/main_window.py`, `ScanThread.run`,
`ScanThread.add_point`, `MainWindow.move_to_position`), and the grid
reconstruction (`MainWindow.reconstruct_images`, `rec_scan_data.py`).

Python floats are modelled as rationals, NumPy arrays as lists of rationals,
raised exceptions as `Except.error`, and the serial link as explicit lists of
the 10-byte frames queued by the background listener.
-/

namespace THzScan

/-- Model of Python `int()` applied to a number: truncation toward zero. -/
def pyInt (q : ℚ) : ℤ := if 0 ≤ q then ⌊q⌋ else -⌊-q⌋

/-- Model of Python `round()` applied to a number: round half to even. -/
def pyRound (q : ℚ) : ℤ :=
  if q - ⌊q⌋ < 1 / 2 then ⌊q⌋
  else if (1 : ℚ) / 2 < q - ⌊q⌋ then ⌊q⌋ + 1
  else if ⌊q⌋ % 2 = 0 then ⌊q⌋ else ⌊q⌋ + 1

/-- The `CommandType` enum of `motor_controller.py`. -/
inductive CommandType
  | SET_DIRECTION
  | SET_PULSES
  | EXECUTE_MOVE
  deriving DecidableEq

/-- Opcode byte of each command (`0x44`, `0x50`, `0x47`). -/
def CommandType.value : CommandType → Nat
  | .SET_DIRECTION => 0x44
  | .SET_PULSES => 0x50
  | .EXECUTE_MOVE => 0x47

/-- Model of the Python call `CommandType(command_code)` in `wait_for_response`:
it succeeds exactly on the three defined opcode values and raises `ValueError`
(here `none`) on every other byte. -/
def commandTypeOfByte (b : Nat) : Option CommandType :=
  if b = 0x44 then some .SET_DIRECTION
  else if b = 0x50 then some .SET_PULSES
  else if b = 0x47 then some .EXECUTE_MOVE
  else none

/-- One frame as queued by `monitor_responses` (raw bytes). -/
abbrev Frame := List Nat

/-- Acceptance test applied by one iteration of the `wait_for_response` loop to one
queued frame: an `EXECUTE_MOVE` wait accepts any 10-byte frame; otherwise the frame
must be at least 5 bytes long and byte 4 must decode to the awaited command type. -/
def frame_accepted (cmd_type : CommandType) (response : Frame) : Bool :=
  if cmd_type = .EXECUTE_MOVE ∧ response.length = 10 then true
  else if 5 ≤ response.length then
    match commandTypeOfByte (response.getD 4 0) with
    | some response_type => decide (response_type = cmd_type)
    | none => false
  else false

/-- Model of `wait_for_response`: the queued frames that become available within the
timeout are examined in FIFO order; the wait returns `True` at the first accepted
frame (non-matching frames are consumed and dropped) and `False` when the timeout
expires with no accepted frame. -/
def wait_for_response (cmd_type : CommandType) : List Frame → Bool
  | [] => false
  | response :: rest =>
    if frame_accepted cmd_type response then true
    else wait_for_response cmd_type rest

/-- Model of the pre-send drain loop in `send_command_and_wait`
(`while not self.response_queue.empty(): ... get_nowait()`). -/
def drain_queue : List Frame → List Frame
  | [] => []
  | _ :: rest => drain_queue rest

/-- Model of `send_command_and_wait`. `queue` holds the frames already queued when the
send begins; `arrivals` holds the frames the listener queues within the timeout window
after the write. The method first resets the input buffer and drains the queue, then
writes the command and waits on what the queue holds during the window. -/
def send_command_and_wait (connected : Bool) (queue : List Frame)
    (cmd_type : CommandType) (arrivals : List Frame) : Bool :=
  if connected then wait_for_response cmd_type (drain_queue queue ++ arrivals)
  else false

/-- Little-endian 4-byte encoding produced by `struct.pack` with the unsigned
32-bit layout used in `set_pulse_count`. -/
def packLE4 (n : Nat) : List Nat :=
  [n % 256, n / 256 % 256, n / 65536 % 256, n / 16777216 % 256]

/-- Value denoted by a little-endian byte list. -/
def leValue (bytes : List Nat) : Nat :=
  bytes.foldr (fun b acc => b + 256 * acc) 0

/-- The frame written by `set_direction`. -/
def set_direction_cmd (stage_id direction : Nat) : Frame :=
  [0x00, 0x00, 0x40, stage_id, CommandType.SET_DIRECTION.value, 0x00,
   direction, 0x00, 0x00, 0x00]

/-- The frame written by `set_pulse_count`. -/
def set_pulse_cmd (stage_id pulse_count : Nat) : Frame :=
  [0x00, 0x00, 0x40, stage_id, CommandType.SET_PULSES.value, 0x00] ++ packLE4 pulse_count

/-- The frame written by `execute_move`. -/
def execute_move_cmd (stage_id : Nat) : Frame :=
  [0x00, 0x00, 0x40, stage_id, CommandType.EXECUTE_MOVE.value, 0x00,
   0x00, 0x00, 0x00, 0x00]

/-- State of one `MotorController` object (the fields the core operations touch). -/
structure MotorController where
  connected : Bool
  current_position : ℚ
  stage_id : Nat
  pulses_per_mm : ℚ
  max_travel : ℚ
  deriving DecidableEq

/-- Frames delivered by the serial link inside each wait window of the three
commands issued by one `move_motor` call. -/
structure LinkWindow where
  dir_arrivals : List Frame
  pulse_arrivals : List Frame
  exec_arrivals : List Frame
  deriving DecidableEq

/-- Result of one `move_motor` call: the returned boolean, the controller state
afterwards, and the command frames actually written to the port in order. -/
structure MoveOutcome where
  success : Bool
  motor : MotorController
  issued : List Frame
  deriving DecidableEq

/-- Model of `move_motor`: `set_direction`, then `set_pulse_count`, then
`execute_move`, each through `send_command_and_wait`; any failing step returns
`False` at once and the remaining steps are not issued. `current_position` is
updated only after all three steps succeed. Each send drains the pending queue
first, so the queue argument of every send is the empty list here; the claim
about `send_command_and_wait` proves the result does not depend on it. -/
def move_motor (m : MotorController) (direction : Nat) (pulse_count : Nat)
    (link : LinkWindow) : MoveOutcome :=
  if m.connected then
    let dirCmd := set_direction_cmd m.stage_id direction
    if send_command_and_wait m.connected [] .SET_DIRECTION link.dir_arrivals then
      let pulseCmd := set_pulse_cmd m.stage_id pulse_count
      if send_command_and_wait m.connected [] .SET_PULSES link.pulse_arrivals then
        let execCmd := execute_move_cmd m.stage_id
        if send_command_and_wait m.connected [] .EXECUTE_MOVE link.exec_arrivals then
          let newPos :=
            if direction = 1 then
              m.current_position - (pulse_count : ℚ) / m.pulses_per_mm
            else
              m.current_position + (pulse_count : ℚ) / m.pulses_per_mm
          ⟨true, { m with current_position := newPos }, [dirCmd, pulseCmd, execCmd]⟩
        else ⟨false, m, [dirCmd, pulseCmd, execCmd]⟩
      else ⟨false, m, [dirCmd, pulseCmd]⟩
    else ⟨false, m, [dirCmd]⟩
  else ⟨false, m, []⟩

/-- Model of `go_home_y`: a limit-seeking move in direction 0 of
`int(max_travel * pulses_per_mm)` pulses; on its success a second move of equal
magnitude in direction 1 is issued, its returned boolean is not inspected, and
`current_position` is set to `0.0` before returning `True`. -/
def go_home_y (m : MotorController) (link1 link2 : LinkWindow) :
    Bool × MotorController :=
  if m.connected then
    let home_pulses := (pyInt (m.max_travel * m.pulses_per_mm)).toNat
    let r1 := move_motor m 0 home_pulses link1
    if r1.success then
      let r2 := move_motor r1.motor 1 home_pulses link2
      (true, { r2.motor with current_position := 0 })
    else (false, r1.motor)
  else (false, m)

/-- The scan-plan fields read by `ScanThread.run` plus the shared time axis. -/
structure ScanConfig where
  center_x : ℚ
  center_y : ℚ
  width : ℚ
  height : ℚ
  step_x : ℚ
  step_y : ℚ
  t_min : ℚ
  t_max : ℚ
  time_axis : List ℚ
  deriving DecidableEq

/-- Derived value `start_x = center_x - width / 2`. -/
def ScanConfig.start_x (c : ScanConfig) : ℚ := c.center_x - c.width / 2

/-- Derived value `start_y = center_y - height / 2`. -/
def ScanConfig.start_y (c : ScanConfig) : ℚ := c.center_y - c.height / 2

/-- Derived value `x_steps = int(width / step_x) + 1`. -/
def ScanConfig.x_steps (c : ScanConfig) : ℤ := pyInt (c.width / c.step_x) + 1

/-- Derived value `y_steps = int(height / step_y) + 1`. -/
def ScanConfig.y_steps (c : ScanConfig) : ℤ := pyInt (c.height / c.step_y) + 1

/-- Derived value `total_points = x_steps * y_steps`. -/
def ScanConfig.total_points (c : ScanConfig) : ℤ := c.x_steps * c.y_steps

/-- Column order of one row of the double loop: Python `range(x_steps)` on even row
indices and `range(x_steps - 1, -1, -1)` on odd row indices. -/
def x_range (x_steps y_idx : Nat) : List Nat :=
  if y_idx % 2 = 0 then List.range x_steps else (List.range x_steps).reverse

/-- Flat visiting order of the double loop in `ScanThread.run`, as
(x_idx, y_idx) pairs. -/
def scan_path (x_steps y_steps : Nat) : List (Nat × Nat) :=
  (List.range y_steps).flatMap fun y_idx =>
    (x_range x_steps y_idx).map fun x_idx => (x_idx, y_idx)

/-- Possible results of `MainWindow.acquire_spectrum`: the decoded waveform on
success, and the Python constant `False` on every failure branch (connection
failure, length error, timeout, raised exception). The method never returns
`None`. -/
inductive AcquireResult
  | spectrum (data : List ℚ)
  | pyFalse
  deriving DecidableEq

/-- Model of the `spectrum is None` test in `ScanThread.run`: neither possible
return value of `acquire_spectrum` is `None`, so the test is false on both. -/
def is_py_none : AcquireResult → Bool
  | .spectrum _ => false
  | .pyFalse => false

/-- Model of `np.where((time_axis >= t_min) & (time_axis <= t_max))[0]` with a
running start index `n`: positions of the entries inside the closed gate. -/
def np_where (t_min t_max : ℚ) : List ℚ → Nat → List Nat
  | [], _ => []
  | t :: ts, n =>
    if t_min ≤ t ∧ t ≤ t_max then n :: np_where t_min t_max ts (n + 1)
    else np_where t_min t_max ts (n + 1)

/-- Maximum of an array slice as `np.max` computes it on a nonempty array; the `[]`
case is junk, the code applies it only under a nonempty-indices guard. -/
def np_max : List ℚ → ℚ
  | [] => 0
  | x :: xs => xs.foldl max x

/-- Minimum of an array slice as `np.min` computes it on a nonempty array. -/
def np_min : List ℚ → ℚ
  | [] => 0
  | x :: xs => xs.foldl min x

/-- Model of the NumPy subscript `spectrum[indices]`: succeeds on an array when every
index is in range; raises (`Except.error`) when `spectrum` is the Python `False`
(a `bool` object is not subscriptable) or when an index is out of range. -/
def py_subscript (v : AcquireResult) (indices : List Nat) : Except String (List ℚ) :=
  match v with
  | .pyFalse => .error "TypeError"
  | .spectrum data =>
    if indices.all fun i => decide (i < data.length) then
      .ok (indices.map fun i => data.getD i 0)
    else .error "IndexError"

/-- Model of `ScanThread.add_point`, restricted to the returned (max, min) pair.
During a scan `time_axis` is never `None` and no `acquire_spectrum` result is
`None`, so only the gate test selects the branch; the call raises exactly when the
NumPy subscript raises. -/
def add_point (time_axis : List ℚ) (spectrum : AcquireResult) (t_min t_max : ℚ) :
    Except String (ℚ × ℚ) :=
  let indices := np_where t_min t_max time_axis 0
  if 0 < indices.length then
    match py_subscript spectrum indices with
    | .ok cut_spectrum => .ok (np_max cut_spectrum, np_min cut_spectrum)
    | .error e => .error e
  else .ok (0, 0)

/-- Spec-side description of the gate (spec section 4.3, Gating): the waveform samples
paired with a time-axis value inside the closed interval. This definition follows the
spec wording and is compared against the source-side `add_point`. -/
def gated_samples (time_axis spectrum : List ℚ) (t_min t_max : ℚ) : List ℚ :=
  ((time_axis.zip spectrum).filter fun p =>
    decide (t_min ≤ p.1 ∧ p.1 ≤ t_max)).map Prod.snd

/-- Signals and status emissions of `ScanThread.run`, in emission order. -/
inductive Event
  | status_start_humidity
  | position_updated (x y : ℚ)
  | status_moving (x y : ℚ)
  | status_move_failed (x y : ℚ)
  | status_acquiring (x y : ℚ)
  | status_acquire_failed (x y : ℚ)
  | spectrum_acquired
  | status_point (x y max_val min_val : ℚ)
  | progress_updated (value : ℤ)
  | status_end_humidity
  | scan_completed (success : Bool)
  deriving DecidableEq

/-- Running state of the scan loop: emissions so far, the two counters of
`ScanThread.run`, whether an exception was raised (`crashed`), and whether the
loop returned early on the stop flag (`halted`). -/
structure RunState where
  events : List Event
  current_point : Nat
  collected_points : Nat
  crashed : Bool
  halted : Bool
  deriving DecidableEq

/-- One iteration of the inner loop body of `ScanThread.run` for the `i`-th visited
point `pt = (x_idx, y_idx)`. A failed `move_to_position` or a `None` spectrum emits a
status message and skips to the next point without touching the counters; an
exception raised inside the body (the NumPy subscript in `add_point`) marks the
run crashed. -/
def process_point (cfg : ScanConfig) (move_ok : Nat → Bool)
    (acquire : Nat → AcquireResult) (stop_flag : Nat → Bool)
    (st : RunState) (i : Nat) (pt : Nat × Nat) : RunState :=
  if st.crashed || st.halted then st
  else if stop_flag i then
    { st with events := st.events ++ [.scan_completed false], halted := true }
  else
    let x_pos := cfg.start_x + (pt.1 : ℚ) * cfg.step_x
    let y_pos := cfg.start_y + (pt.2 : ℚ) * cfg.step_y
    let ev1 := st.events ++ [.position_updated x_pos y_pos, .status_moving x_pos y_pos]
    if !(move_ok i) then { st with events := ev1 ++ [.status_move_failed x_pos y_pos] }
    else
      let ev2 := ev1 ++ [.status_acquiring x_pos y_pos]
      let spectrum := acquire i
      if is_py_none spectrum then
        { st with events := ev2 ++ [.status_acquire_failed x_pos y_pos] }
      else
        let ev3 := ev2 ++ [.spectrum_acquired]
        match add_point cfg.time_axis spectrum cfg.t_min cfg.t_max with
        | .error _ => { st with events := ev3, crashed := true }
        | .ok (max_val, min_val) =>
          let collected := st.collected_points + 1
          let ev4 := ev3 ++ [.status_point x_pos y_pos max_val min_val]
          let cur := st.current_point + 1
          let progress := pyInt ((cur : ℚ) / (cfg.total_points : ℚ) * 100)
          { events := ev4 ++ [.progress_updated progress],
            current_point := cur, collected_points := collected,
            crashed := false, halted := false }

/-- The whole double loop of `ScanThread.run`, visiting the path points in order with
a flat index; once `crashed` or `halted` is set the remaining points are skipped
(the exception propagates, or the method returned). -/
def process_points (cfg : ScanConfig) (move_ok : Nat → Bool)
    (acquire : Nat → AcquireResult) (stop_flag : Nat → Bool) :
    List (Nat × Nat) → Nat → RunState → RunState
  | [], _, st => st
  | pt :: rest, i, st =>
    process_points cfg move_ok acquire stop_flag rest (i + 1)
      (process_point cfg move_ok acquire stop_flag st i pt)

/-- State at entry of the loop, after the start-humidity status emission. -/
def initial_run_state : RunState :=
  ⟨[.status_start_humidity], 0, 0, false, false⟩

/-- Model of `ScanThread.run`. `move_ok i` abstracts the outcome of the
`move_to_position` call at the `i`-th visited point, `acquire i` the value
returned by `acquire_spectrum` there, and `stop_flag i` the value of
`self.stopped` read at the top of that iteration. The body runs under `try`: an
exception raised inside it ends the loop and emits `scan_completed(False, ...)`;
a normal exit emits the end-humidity status and `scan_completed(True, ...)`. -/
def scan_run (cfg : ScanConfig) (move_ok : Nat → Bool)
    (acquire : Nat → AcquireResult) (stop_flag : Nat → Bool) : RunState :=
  let path := scan_path cfg.x_steps.toNat cfg.y_steps.toNat
  let st := process_points cfg move_ok acquire stop_flag path 0 initial_run_state
  if st.halted then st
  else if st.crashed then { st with events := st.events ++ [.scan_completed false] }
  else { st with events := st.events ++ [.status_end_humidity, .scan_completed true] }

/-- Values carried by the `progress_updated` emissions of a run, in order. -/
def progress_values (st : RunState) : List ℤ :=
  st.events.filterMap fun e =>
    match e with
    | .progress_updated v => some v
    | _ => none

/-- The value `int(current_point / total_points * 100)` emitted after the
`n`-th successfully processed point. -/
def progress_of (cfg : ScanConfig) (n : Nat) : ℤ :=
  pyInt ((n : ℚ) / (cfg.total_points : ℚ) * 100)

/-- Number of indices in `[i, i + n)` at which `move_ok` holds. -/
def success_count (move_ok : Nat → Bool) : Nat → Nat → Nat
  | _, 0 => 0
  | i, n + 1 => (if move_ok i then 1 else 0) + success_count move_ok (i + 1) n

/-- The two axis controllers owned by the window. -/
structure TwoAxisState where
  motorX : MotorController
  motorY : MotorController
  deriving DecidableEq

/-- Result of one `move_to_position` call: the returned boolean, both controller
states afterwards, and the frames written on each axis. -/
structure MoveToPositionResult where
  success : Bool
  motors : TwoAxisState
  issued_x : List Frame
  issued_y : List Frame
  deriving DecidableEq

/-- Model of `MainWindow.move_to_position`: per-axis signed distance converted to a
direction and `int(distance * pulses_per_mm)` pulses; an axis with zero pulses is not
commanded and keeps its success default `True`; an axis whose `move_motor` succeeds
has its `current_position` overwritten with the exact target coordinate. Both legs
run under `scan_lock`. -/
def move_to_position (w : TwoAxisState) (x y : ℚ) (link_x link_y : LinkWindow) :
    MoveToPositionResult :=
  let current_x := w.motorX.current_position
  let distance_x := |x - current_x|
  let direction_x : Nat := if current_x < x then 0 else 1
  let pulse_count_x := (pyInt (distance_x * w.motorX.pulses_per_mm)).toNat
  let current_y := w.motorY.current_position
  let distance_y := |y - current_y|
  let direction_y : Nat := if current_y < y then 0 else 1
  let pulse_count_y := (pyInt (distance_y * w.motorY.pulses_per_mm)).toNat
  let xr :=
    if 0 < pulse_count_x then
      let r := move_motor w.motorX direction_x pulse_count_x link_x
      if r.success then (true, { r.motor with current_position := x }, r.issued)
      else (false, r.motor, r.issued)
    else (true, w.motorX, ([] : List Frame))
  let yr :=
    if 0 < pulse_count_y then
      let r := move_motor w.motorY direction_y pulse_count_y link_y
      if r.success then (true, { r.motor with current_position := y }, r.issued)
      else (false, r.motor, r.issued)
    else (true, w.motorY, ([] : List Frame))
  ⟨xr.1 && yr.1, ⟨xr.2.1, yr.2.1⟩, xr.2.2, yr.2.2⟩

/-- One collected sample handed to grid reconstruction. -/
structure RecSample where
  x : ℚ
  y : ℚ
  max_value : ℚ
  min_value : ℚ

/-- The two reconstruction grids; `none` models the NaN missing-value sentinel. -/
structure Grids where
  peak_image : Nat → Nat → Option ℚ
  pp_image : Nat → Nat → Option ℚ

/-- Both images start filled with the missing-value sentinel. -/
def empty_grids : Grids := ⟨fun _ _ => none, fun _ _ => none⟩

/-- Single-cell update of one image. -/
def write_cell (g : Nat → Nat → Option ℚ) (row col : Nat) (v : ℚ) :
    Nat → Nat → Option ℚ :=
  fun r c => if r = row ∧ c = col then some v else g r c

/-- Grid cell of a sample position, returned as (row, col):
`col = int(round((x - start_x) / step_x))`, `row = int(round((y - start_y) / step_y))`.
Python `round` with one argument already returns an int, rounding halves to even. -/
def cell_of (cfg : ScanConfig) (x y : ℚ) : ℤ × ℤ :=
  (pyRound ((y - cfg.start_y) / cfg.step_y), pyRound ((x - cfg.start_x) / cfg.step_x))

/-- One iteration of the binning loop shared by `MainWindow.reconstruct_images` and
`reconstruct_from_hdf5`: writes both images when `0 <= row < y_steps` and
`0 <= col < x_steps`, and silently drops the sample otherwise. -/
def rec_step (cfg : ScanConfig) (g : Grids) (s : RecSample) : Grids :=
  let rc := cell_of cfg s.x s.y
  if 0 ≤ rc.1 ∧ rc.1 < cfg.y_steps ∧ 0 ≤ rc.2 ∧ rc.2 < cfg.x_steps then
    ⟨write_cell g.peak_image rc.1.toNat rc.2.toNat s.max_value,
     write_cell g.pp_image rc.1.toNat rc.2.toNat (s.max_value - s.min_value)⟩
  else g

/-- The whole binning loop over the collected samples. -/
def reconstruct_images (cfg : ScanConfig) (samples : List RecSample) : Grids :=
  samples.foldl (rec_step cfg) empty_grids

/-! Helper lemmas. -/

lemma drain_queue_eq_nil : ∀ queue : List Frame, drain_queue queue = []
  | [] => rfl
  | _ :: rest => drain_queue_eq_nil rest

lemma send_ignores_stale (queue : List Frame) (cmd_type : CommandType)
    (arrivals : List Frame) :
    send_command_and_wait true queue cmd_type arrivals
      = wait_for_response cmd_type arrivals := by
  simp [send_command_and_wait, drain_queue_eq_nil]

lemma frame_accepted_set_direction (response : Frame) (h : response.length = 10) :
    frame_accepted .SET_DIRECTION response = decide (response.getD 4 0 = 0x44) := by
  unfold frame_accepted commandTypeOfByte
  rw [if_neg (by simp), if_pos (by omega)]
  by_cases h44 : response.getD 4 0 = 0x44
  · rw [if_pos h44, h44]
    decide
  · rw [if_neg h44]
    by_cases h50 : response.getD 4 0 = 0x50
    · rw [if_pos h50]
      exact (decide_eq_false h44).symm
    · rw [if_neg h50]
      by_cases h47 : response.getD 4 0 = 0x47
      · rw [if_pos h47]
        exact (decide_eq_false h44).symm
      · rw [if_neg h47]
        exact (decide_eq_false h44).symm

lemma frame_accepted_set_pulses (response : Frame) (h : response.length = 10) :
    frame_accepted .SET_PULSES response = decide (response.getD 4 0 = 0x50) := by
  unfold frame_accepted commandTypeOfByte
  rw [if_neg (by simp), if_pos (by omega)]
  by_cases h44 : response.getD 4 0 = 0x44
  · rw [if_pos h44]
    refine Eq.trans ?_ (decide_eq_false (by rw [h44]; decide)).symm
    rfl
  · rw [if_neg h44]
    by_cases h50 : response.getD 4 0 = 0x50
    · rw [if_pos h50, h50]
      decide
    · rw [if_neg h50]
      by_cases h47 : response.getD 4 0 = 0x47
      · rw [if_pos h47]
        exact (decide_eq_false h50).symm
      · rw [if_neg h47]
        exact (decide_eq_false h50).symm

lemma frame_accepted_execute (response : Frame) (h : response.length = 10) :
    frame_accepted .EXECUTE_MOVE response = true := by
  unfold frame_accepted
  rw [if_pos ⟨rfl, h⟩]

end THzScan

namespace THzScan

/-- C8: every command serializes to exactly 10 bytes
`[0x00, 0x00, 0x40, stage_id, opcode, 0x00, payload(4)]`, with the direction byte
followed by three zero bytes for SetDirection, the pulse count as a little-endian
unsigned 32-bit integer for SetPulses, and four zero bytes for ExecuteMove. -/
theorem c8_command_serialization (stage_id direction pulse_count : Nat)
    (h : pulse_count < 4294967296) :
    set_direction_cmd stage_id direction
      = [0x00, 0x00, 0x40, stage_id, 0x44, 0x00] ++ [direction, 0x00, 0x00, 0x00]
    ∧ (set_direction_cmd stage_id direction).length = 10
    ∧ set_pulse_cmd stage_id pulse_count
      = [0x00, 0x00, 0x40, stage_id, 0x50, 0x00] ++ packLE4 pulse_count
    ∧ (set_pulse_cmd stage_id pulse_count).length = 10
    ∧ (packLE4 pulse_count).length = 4
    ∧ leValue (packLE4 pulse_count) = pulse_count
    ∧ (∀ b ∈ packLE4 pulse_count, b < 256)
    ∧ execute_move_cmd stage_id
      = [0x00, 0x00, 0x40, stage_id, 0x47, 0x00] ++ [0x00, 0x00, 0x00, 0x00]
    ∧ (execute_move_cmd stage_id).length = 10 := by
  refine ⟨rfl, rfl, rfl, by simp [set_pulse_cmd, packLE4], rfl, ?_, ?_, rfl, rfl⟩
  · simp only [leValue, packLE4, List.foldr]
    omega
  · intro b hb
    simp only [packLE4, List.mem_cons, List.not_mem_nil, or_false] at hb
    rcases hb with rfl | rfl | rfl | rfl <;> omega

/-- C8 witness: the little-endian encoding round-trips on a concrete 32-bit count. -/
theorem c8_witness :
    305419896 < 4294967296
    ∧ leValue (packLE4 305419896) = 305419896
    ∧ (set_pulse_cmd 2 305419896).length = 10
    ∧ set_direction_cmd 2 1
      = [0x00, 0x00, 0x40, 2, 0x44, 0x00] ++ [1, 0x00, 0x00, 0x00] := by
  have h := c8_command_serialization 2 1 305419896 (by norm_num)
  exact ⟨by norm_num, h.2.2.2.2.2.1, h.2.2.2.1, h.1⟩

/-- C4: the response queue (and input buffer) is drained before every command write,
so a stale frame queued before the send is never matched as that command's response;
a SetDirection or SetPulses command is acknowledged only by a frame whose byte 4
equals the issued opcode, while an ExecuteMove command is acknowledged by any
10-byte frame arriving within the timeout. -/
theorem c4_drain_and_correlation (queue queue' arrivals : List Frame)
    (cmd_type : CommandType) (response : Frame) (h : response.length = 10) :
    send_command_and_wait true queue cmd_type arrivals
      = wait_for_response cmd_type arrivals
    ∧ send_command_and_wait true queue cmd_type arrivals
      = send_command_and_wait true queue' cmd_type arrivals
    ∧ send_command_and_wait true queue cmd_type [] = false
    ∧ frame_accepted .SET_DIRECTION response = decide (response.getD 4 0 = 0x44)
    ∧ frame_accepted .SET_PULSES response = decide (response.getD 4 0 = 0x50)
    ∧ frame_accepted .EXECUTE_MOVE response = true := by
  refine ⟨send_ignores_stale .., ?_, ?_, frame_accepted_set_direction response h,
    frame_accepted_set_pulses response h, frame_accepted_execute response h⟩
  · rw [send_ignores_stale, send_ignores_stale]
  · rw [send_ignores_stale]
    rfl

/-- C4 witness: a queued stale frame that would match SetDirection is drained and not
taken as a response, while a matching frame arriving after the send is. -/
theorem c4_witness :
    ([0, 0, 64, 2, 68, 0, 0, 0, 0, 0] : Frame).length = 10
    ∧ send_command_and_wait true [[0, 0, 64, 2, 68, 0, 0, 0, 0, 0]]
        CommandType.SET_DIRECTION [] = false
    ∧ send_command_and_wait true [[0, 0, 64, 2, 68, 0, 0, 0, 0, 0]]
        CommandType.SET_DIRECTION [[0, 0, 64, 2, 68, 0, 0, 0, 0, 0]]
      = wait_for_response CommandType.SET_DIRECTION [[0, 0, 64, 2, 68, 0, 0, 0, 0, 0]]
    ∧ frame_accepted CommandType.EXECUTE_MOVE [0, 0, 64, 2, 68, 0, 0, 0, 0, 0] = true := by
  have h := c4_drain_and_correlation [[0, 0, 64, 2, 68, 0, 0, 0, 0, 0]] []
    [[0, 0, 64, 2, 68, 0, 0, 0, 0, 0]] CommandType.SET_DIRECTION
    [0, 0, 64, 2, 68, 0, 0, 0, 0, 0] (by decide)
  exact ⟨by decide, h.2.2.1, h.1, h.2.2.2.2.2⟩

/-- C3: for a connected axis, `move_motor` performs SetDirection, then SetPulses,
then ExecuteMove, each awaiting its correlated response; a failing step short-circuits
the remaining steps, returns failure and leaves `current_position` unchanged; only
when all three steps succeed is `current_position` updated by
`pulse_count / pulses_per_mm`, subtracted when `direction` is 1 and added
otherwise. -/
theorem c3_move_motor (m : MotorController) (direction pulse_count : Nat)
    (link : LinkWindow) (hc : m.connected = true) :
    (send_command_and_wait true [] .SET_DIRECTION link.dir_arrivals = false →
      move_motor m direction pulse_count link
        = ⟨false, m, [set_direction_cmd m.stage_id direction]⟩)
    ∧ (send_command_and_wait true [] .SET_DIRECTION link.dir_arrivals = true →
       send_command_and_wait true [] .SET_PULSES link.pulse_arrivals = false →
      move_motor m direction pulse_count link
        = ⟨false, m, [set_direction_cmd m.stage_id direction,
            set_pulse_cmd m.stage_id pulse_count]⟩)
    ∧ (send_command_and_wait true [] .SET_DIRECTION link.dir_arrivals = true →
       send_command_and_wait true [] .SET_PULSES link.pulse_arrivals = true →
       send_command_and_wait true [] .EXECUTE_MOVE link.exec_arrivals = false →
      move_motor m direction pulse_count link
        = ⟨false, m, [set_direction_cmd m.stage_id direction,
            set_pulse_cmd m.stage_id pulse_count, execute_move_cmd m.stage_id]⟩)
    ∧ (send_command_and_wait true [] .SET_DIRECTION link.dir_arrivals = true →
       send_command_and_wait true [] .SET_PULSES link.pulse_arrivals = true →
       send_command_and_wait true [] .EXECUTE_MOVE link.exec_arrivals = true →
      move_motor m direction pulse_count link
        = ⟨true,
           { m with current_position :=
              if direction = 1 then
                m.current_position - (pulse_count : ℚ) / m.pulses_per_mm
              else
                m.current_position + (pulse_count : ℚ) / m.pulses_per_mm },
           [set_direction_cmd m.stage_id direction,
            set_pulse_cmd m.stage_id pulse_count, execute_move_cmd m.stage_id]⟩) := by
  refine ⟨fun h1 => ?_, fun h1 h2 => ?_, fun h1 h2 h3 => ?_, fun h1 h2 h3 => ?_⟩ <;>
    simp [move_motor, hc, h1, *]

set_option maxRecDepth 8192 in
/-- C3 witness: a concrete connected axis whose three steps are all acknowledged moves
and updates its position by `-pulse_count / pulses_per_mm` for direction 1. -/
theorem c3_witness :
    (⟨true, 0, 2, 2000, 200⟩ : MotorController).connected = true
    ∧ send_command_and_wait true [] .SET_DIRECTION [[0, 0, 64, 2, 68, 0, 0, 0, 0, 0]] = true
    ∧ move_motor ⟨true, 0, 2, 2000, 200⟩ 1 1000
        ⟨[[0, 0, 64, 2, 68, 0, 0, 0, 0, 0]],
         [[0, 0, 64, 2, 80, 0, 0, 0, 0, 0]],
         [[9, 9, 9, 9, 9, 9, 9, 9, 9, 9]]⟩
      = ⟨true, ⟨true, -(1/2), 2, 2000, 200⟩,
         [set_direction_cmd 2 1, set_pulse_cmd 2 1000, execute_move_cmd 2]⟩ := by
  have h := (c3_move_motor ⟨true, 0, 2, 2000, 200⟩ 1 1000
    ⟨[[0, 0, 64, 2, 68, 0, 0, 0, 0, 0]],
     [[0, 0, 64, 2, 80, 0, 0, 0, 0, 0]],
     [[9, 9, 9, 9, 9, 9, 9, 9, 9, 9]]⟩ rfl).2.2.2
    (by decide) (by decide) (by decide)
  refine ⟨rfl, by decide, h.trans ?_⟩
  with_unfolding_all decide

/-- Every `move_motor` call changes at most the `current_position` field of the
controller state. -/
lemma move_motor_motor_eq (m : MotorController) (direction pulse_count : Nat)
    (link : LinkWindow) :
    (move_motor m direction pulse_count link).motor
      = { m with current_position :=
            (move_motor m direction pulse_count link).motor.current_position } := by
  unfold move_motor
  split_ifs <;> rfl

/-- C9: if the first (limit-seeking) move of `go_home_y` succeeds, `go_home_y`
returns success and sets `current_position` to `0.0` regardless of whether the
second, opposite-direction corrective move succeeds or fails: the result of the
second `move_motor` call is never inspected. -/
theorem c9_go_home_y (m : MotorController) (link1 link2 link2' : LinkWindow)
    (hc : m.connected = true)
    (h1 : (move_motor m 0 (pyInt (m.max_travel * m.pulses_per_mm)).toNat link1).success
            = true) :
    (go_home_y m link1 link2).1 = true
    ∧ (go_home_y m link1 link2).2.current_position = 0
    ∧ go_home_y m link1 link2 = go_home_y m link1 link2' := by
  have expand : ∀ l2 : LinkWindow,
      go_home_y m link1 l2
        = (true,
           { (move_motor (move_motor m 0 (pyInt (m.max_travel * m.pulses_per_mm)).toNat
                link1).motor 1 (pyInt (m.max_travel * m.pulses_per_mm)).toNat l2).motor
             with current_position := 0 }) := by
    intro l2
    simp [go_home_y, hc, h1]
  refine ⟨by rw [expand], by rw [expand], ?_⟩
  rw [expand, expand]
  rw [move_motor_motor_eq (move_motor m 0 _ link1).motor 1 _ link2,
    move_motor_motor_eq (move_motor m 0 _ link1).motor 1 _ link2']

/-- C9 witness: a concrete homing run whose first move is acknowledged and whose
second move gets no response still returns success with position `0.0`. -/
theorem c9_witness :
    (⟨true, 5, 1, 2000, 200⟩ : MotorController).connected = true
    ∧ (move_motor ⟨true, 5, 1, 2000, 200⟩ 0
        (pyInt ((⟨true, 5, 1, 2000, 200⟩ : MotorController).max_travel
          * (⟨true, 5, 1, 2000, 200⟩ : MotorController).pulses_per_mm)).toNat
        ⟨[[0, 0, 64, 1, 68, 0, 0, 0, 0, 0]],
         [[0, 0, 64, 1, 80, 0, 0, 0, 0, 0]],
         [[7, 7, 7, 7, 7, 7, 7, 7, 7, 7]]⟩).success = true
    ∧ (go_home_y ⟨true, 5, 1, 2000, 200⟩
        ⟨[[0, 0, 64, 1, 68, 0, 0, 0, 0, 0]],
         [[0, 0, 64, 1, 80, 0, 0, 0, 0, 0]],
         [[7, 7, 7, 7, 7, 7, 7, 7, 7, 7]]⟩ ⟨[], [], []⟩).1 = true
    ∧ (go_home_y ⟨true, 5, 1, 2000, 200⟩
        ⟨[[0, 0, 64, 1, 68, 0, 0, 0, 0, 0]],
         [[0, 0, 64, 1, 80, 0, 0, 0, 0, 0]],
         [[7, 7, 7, 7, 7, 7, 7, 7, 7, 7]]⟩ ⟨[], [], []⟩).2.current_position = 0 := by
  have hsucc : (move_motor ⟨true, 5, 1, 2000, 200⟩ 0
      (pyInt ((⟨true, 5, 1, 2000, 200⟩ : MotorController).max_travel
        * (⟨true, 5, 1, 2000, 200⟩ : MotorController).pulses_per_mm)).toNat
      ⟨[[0, 0, 64, 1, 68, 0, 0, 0, 0, 0]],
       [[0, 0, 64, 1, 80, 0, 0, 0, 0, 0]],
       [[7, 7, 7, 7, 7, 7, 7, 7, 7, 7]]⟩).success = true := by
    with_unfolding_all decide
  have h := c9_go_home_y ⟨true, 5, 1, 2000, 200⟩
    ⟨[[0, 0, 64, 1, 68, 0, 0, 0, 0, 0]],
     [[0, 0, 64, 1, 80, 0, 0, 0, 0, 0]],
     [[7, 7, 7, 7, 7, 7, 7, 7, 7, 7]]⟩ ⟨[], [], []⟩ ⟨[], [], []⟩ rfl hsucc
  exact ⟨rfl, hsucc, h.1, h.2.1⟩

/-- C10: in `move_to_position`, an axis whose computed pulse count
`int(|target - current| * pulses_per_mm)` is zero has no command sent to it, is
treated as successful and keeps its previous `current_position`; an axis whose pulse
count is positive and whose move succeeds has its `current_position` set to exactly
the target coordinate, overwriting the incremental update made inside
`move_motor`. -/
theorem c10_move_to_position (w : TwoAxisState) (x y : ℚ) (link_x link_y : LinkWindow) :
    ((pyInt (|x - w.motorX.current_position| * w.motorX.pulses_per_mm)).toNat = 0 →
      (move_to_position w x y link_x link_y).issued_x = []
      ∧ (move_to_position w x y link_x link_y).motors.motorX = w.motorX)
    ∧ ((pyInt (|y - w.motorY.current_position| * w.motorY.pulses_per_mm)).toNat = 0 →
      (move_to_position w x y link_x link_y).issued_y = []
      ∧ (move_to_position w x y link_x link_y).motors.motorY = w.motorY)
    ∧ ((pyInt (|x - w.motorX.current_position| * w.motorX.pulses_per_mm)).toNat = 0 →
       (pyInt (|y - w.motorY.current_position| * w.motorY.pulses_per_mm)).toNat = 0 →
      move_to_position w x y link_x link_y = ⟨true, w, [], []⟩)
    ∧ (0 < (pyInt (|x - w.motorX.current_position| * w.motorX.pulses_per_mm)).toNat →
       (move_motor w.motorX (if w.motorX.current_position < x then 0 else 1)
          (pyInt (|x - w.motorX.current_position| * w.motorX.pulses_per_mm)).toNat
          link_x).success = true →
      (move_to_position w x y link_x link_y).motors.motorX.current_position = x)
    ∧ (0 < (pyInt (|y - w.motorY.current_position| * w.motorY.pulses_per_mm)).toNat →
       (move_motor w.motorY (if w.motorY.current_position < y then 0 else 1)
          (pyInt (|y - w.motorY.current_position| * w.motorY.pulses_per_mm)).toNat
          link_y).success = true →
      (move_to_position w x y link_x link_y).motors.motorY.current_position = y) := by
  refine ⟨fun hx => ?_, fun hy => ?_, fun hx hy => ?_, fun hx hs => ?_, fun hy hs => ?_⟩
  · simp [move_to_position, hx]
  · simp [move_to_position, hy]
  · simp [move_to_position, hx, hy]
  · simp [move_to_position, hx, hs]
  · simp [move_to_position, hy, hs]

set_option maxRecDepth 8192 in
/-- C10 witness: a concrete call with a positive X leg whose move is acknowledged and
a zero-pulse Y leg: the X position lands exactly on the target, the Y axis receives no
command and is unchanged, and the call reports success. -/
theorem c10_witness :
    0 < (pyInt (|(1 : ℚ) - (0 : ℚ)| * 2000)).toNat
    ∧ (pyInt (|(3 : ℚ) - (3 : ℚ)| * 2000)).toNat = 0
    ∧ (move_to_position ⟨⟨true, 0, 2, 2000, 200⟩, ⟨true, 3, 1, 2000, 200⟩⟩ 1 3
        ⟨[[0, 0, 64, 2, 68, 0, 0, 0, 0, 0]],
         [[0, 0, 64, 2, 80, 0, 0, 0, 0, 0]],
         [[9, 9, 9, 9, 9, 9, 9, 9, 9, 9]]⟩
        ⟨[], [], []⟩).motors.motorX.current_position = 1
    ∧ (move_to_position ⟨⟨true, 0, 2, 2000, 200⟩, ⟨true, 3, 1, 2000, 200⟩⟩ 1 3
        ⟨[[0, 0, 64, 2, 68, 0, 0, 0, 0, 0]],
         [[0, 0, 64, 2, 80, 0, 0, 0, 0, 0]],
         [[9, 9, 9, 9, 9, 9, 9, 9, 9, 9]]⟩
        ⟨[], [], []⟩).issued_y = []
    ∧ (move_to_position ⟨⟨true, 0, 2, 2000, 200⟩, ⟨true, 3, 1, 2000, 200⟩⟩ 1 3
        ⟨[[0, 0, 64, 2, 68, 0, 0, 0, 0, 0]],
         [[0, 0, 64, 2, 80, 0, 0, 0, 0, 0]],
         [[9, 9, 9, 9, 9, 9, 9, 9, 9, 9]]⟩
        ⟨[], [], []⟩).motors.motorY
      = (⟨true, 3, 1, 2000, 200⟩ : MotorController) := by
  have h := c10_move_to_position ⟨⟨true, 0, 2, 2000, 200⟩, ⟨true, 3, 1, 2000, 200⟩⟩ 1 3
    ⟨[[0, 0, 64, 2, 68, 0, 0, 0, 0, 0]],
     [[0, 0, 64, 2, 80, 0, 0, 0, 0, 0]],
     [[9, 9, 9, 9, 9, 9, 9, 9, 9, 9]]⟩
    ⟨[], [], []⟩
  refine ⟨by with_unfolding_all decide, by with_unfolding_all decide, ?_, ?_, ?_⟩
  · exact h.2.2.2.1 (by with_unfolding_all decide) (by with_unfolding_all decide)
  · exact (h.2.1 (by with_unfolding_all decide)).1
  · exact (h.2.1 (by with_unfolding_all decide)).2

/-! Path lemmas for the boustrophedon visiting order. -/

lemma pyInt_eq_floor (q : ℚ) (h : 0 ≤ q) : pyInt q = ⌊q⌋ := if_pos h

lemma x_range_length (x_steps y_idx : Nat) : (x_range x_steps y_idx).length = x_steps := by
  unfold x_range
  split <;> simp

lemma x_range_nodup (x_steps y_idx : Nat) : (x_range x_steps y_idx).Nodup := by
  unfold x_range
  split
  · exact List.nodup_range _
  · exact List.nodup_reverse.mpr (List.nodup_range _)

lemma mem_x_range {x_steps y_idx a : Nat} : a ∈ x_range x_steps y_idx ↔ a < x_steps := by
  unfold x_range
  split <;> simp

lemma scan_path_zero (x_steps : Nat) : scan_path x_steps 0 = [] := by
  simp [scan_path]

lemma scan_path_succ (x_steps n : Nat) :
    scan_path x_steps (n + 1)
      = scan_path x_steps n ++ ((x_range x_steps n).map fun i => (i, n)) := by
  simp [scan_path, List.range_succ]

lemma scan_path_length (x_steps : Nat) :
    ∀ y_steps, (scan_path x_steps y_steps).length = y_steps * x_steps
  | 0 => by simp [scan_path_zero]
  | n + 1 => by
    rw [scan_path_succ, List.length_append, scan_path_length x_steps n,
      List.length_map, x_range_length, Nat.succ_mul]

lemma mem_scan_path {x_steps y_steps : Nat} (p : Nat × Nat) :
    p ∈ scan_path x_steps y_steps ↔ p.1 < x_steps ∧ p.2 < y_steps := by
  constructor
  · intro hp
    simp only [scan_path, List.mem_flatMap, List.mem_map, List.mem_range] at hp
    obtain ⟨y, hy, x, hx, rfl⟩ := hp
    exact ⟨mem_x_range.mp hx, hy⟩
  · rintro ⟨h1, h2⟩
    simp only [scan_path, List.mem_flatMap, List.mem_map, List.mem_range]
    exact ⟨p.2, h2, p.1, mem_x_range.mpr h1, rfl⟩

lemma scan_path_nodup (x_steps : Nat) : ∀ y_steps, (scan_path x_steps y_steps).Nodup
  | 0 => by simp [scan_path_zero]
  | n + 1 => by
    rw [scan_path_succ]
    refine List.nodup_append.mpr ⟨scan_path_nodup x_steps n, ?_, ?_⟩
    · exact (x_range_nodup x_steps n).map fun a b h => (Prod.mk.injEq .. ▸ h).1
    · intro p hp hp'
      have h1 : p.2 < n := ((mem_scan_path p).mp hp).2
      obtain ⟨x, _, rfl⟩ := List.mem_map.mp hp'
      omega

lemma filter_row (j m : Nat) (l : List Nat) :
    ((l.map fun i => (i, m)).filter fun p => p.2 == j)
      = if m = j then l.map fun i => (i, m) else [] := by
  induction l with
  | nil => simp
  | cons i rest ih =>
    by_cases hm : m = j
    · subst hm
      simp [ih]
    · simp [hm, ih]

lemma scan_path_filter_ge (x_steps y_steps j : Nat) (h : y_steps ≤ j) :
    (scan_path x_steps y_steps).filter (fun p => p.2 == j) = [] := by
  rw [List.filter_eq_nil_iff]
  intro p hp
  have := ((mem_scan_path p).mp hp).2
  simpa using by omega

lemma scan_path_filter_row (x_steps : Nat) :
    ∀ y_steps j, j < y_steps →
      ((scan_path x_steps y_steps).filter fun p => p.2 == j)
        = (x_range x_steps j).map fun i => (i, j)
  | 0, j, h => absurd h (by omega)
  | n + 1, j, h => by
    rw [scan_path_succ, List.filter_append, filter_row]
    by_cases hjn : j = n
    · subst hjn
      rw [scan_path_filter_ge x_steps j j le_rfl, if_pos rfl, List.nil_append]
    · rw [scan_path_filter_row x_steps n j (by omega), if_neg (by omega),
        List.append_nil]

/-- C5: for every plan with positive extents and steps,
`x_steps = floor(width/step_x) + 1`, `y_steps = floor(height/step_y) + 1`,
`total_points = x_steps * y_steps`, and the generated path visits each of the
`total_points` grid cells exactly once, traversing columns in ascending order on
even row indices and in descending order on odd row indices. -/
theorem c5_plan_and_path (cfg : ScanConfig)
    (hw : 0 < cfg.width) (hh : 0 < cfg.height)
    (hsx : 0 < cfg.step_x) (hsy : 0 < cfg.step_y) :
    cfg.x_steps = ⌊cfg.width / cfg.step_x⌋ + 1
    ∧ cfg.y_steps = ⌊cfg.height / cfg.step_y⌋ + 1
    ∧ cfg.total_points = cfg.x_steps * cfg.y_steps
    ∧ ((scan_path cfg.x_steps.toNat cfg.y_steps.toNat).length : ℤ) = cfg.total_points
    ∧ (scan_path cfg.x_steps.toNat cfg.y_steps.toNat).Nodup
    ∧ (∀ i j : Nat, (i, j) ∈ scan_path cfg.x_steps.toNat cfg.y_steps.toNat
        ↔ i < cfg.x_steps.toNat ∧ j < cfg.y_steps.toNat)
    ∧ (∀ j : Nat, j < cfg.y_steps.toNat →
        ((scan_path cfg.x_steps.toNat cfg.y_steps.toNat).filter
            fun p => p.2 == j).map Prod.fst
          = if j % 2 = 0 then List.range cfg.x_steps.toNat
            else (List.range cfg.x_steps.toNat).reverse) := by
  have hx0 : (0 : ℚ) ≤ cfg.width / cfg.step_x := div_nonneg hw.le hsx.le
  have hy0 : (0 : ℚ) ≤ cfg.height / cfg.step_y := div_nonneg hh.le hsy.le
  have hxf : cfg.x_steps = ⌊cfg.width / cfg.step_x⌋ + 1 := by
    unfold ScanConfig.x_steps
    rw [pyInt_eq_floor _ hx0]
  have hyf : cfg.y_steps = ⌊cfg.height / cfg.step_y⌋ + 1 := by
    unfold ScanConfig.y_steps
    rw [pyInt_eq_floor _ hy0]
  have hxpos : 0 ≤ cfg.x_steps := by
    rw [hxf]
    have := Int.floor_nonneg.mpr hx0
    omega
  have hypos : 0 ≤ cfg.y_steps := by
    rw [hyf]
    have := Int.floor_nonneg.mpr hy0
    omega
  refine ⟨hxf, hyf, rfl, ?_, scan_path_nodup .., fun i j => mem_scan_path (i, j), ?_⟩
  · rw [scan_path_length]
    unfold ScanConfig.total_points
    push_cast [Int.toNat_of_nonneg hxpos, Int.toNat_of_nonneg hypos]
    ring
  · intro j hj
    rw [scan_path_filter_row _ _ j hj]
    unfold x_range
    split <;> simp [Function.comp_def]

set_option maxRecDepth 8192 in
/-- C5 witness: the spec scenario plan `center=(85,140)`, `width=height=10`,
`step=1` gives an 11 by 11 grid of 121 points, visited exactly once each, with
row 0 ascending and row 1 descending. -/
theorem c5_witness :
    (⟨85, 140, 10, 10, 1, 1, 0, 100, []⟩ : ScanConfig).x_steps = 11
    ∧ (⟨85, 140, 10, 10, 1, 1, 0, 100, []⟩ : ScanConfig).total_points = 121
    ∧ (scan_path 11 11).length = 121
    ∧ (scan_path 11 11).Nodup
    ∧ ((10, 0) ∈ scan_path 11 11)
    ∧ ((scan_path 11 11).filter fun p => p.2 == 1).map Prod.fst
        = (List.range 11).reverse := by
  have h := c5_plan_and_path ⟨85, 140, 10, 10, 1, 1, 0, 100, []⟩
    (by norm_num) (by norm_num) (by norm_num) (by norm_num)
  have hx : (⟨85, 140, 10, 10, 1, 1, 0, 100, []⟩ : ScanConfig).x_steps = 11 := by
    rw [h.1]
    norm_num
  have hy : (⟨85, 140, 10, 10, 1, 1, 0, 100, []⟩ : ScanConfig).y_steps = 11 := by
    rw [h.2.1]
    norm_num
  have h6 := h.2.2.2.2.2.1 10 0
  rw [hx, hy] at h6
  norm_num at h6
  exact ⟨hx, by with_unfolding_all decide, by decide, by decide, h6, by decide⟩

/-! Gating lemmas. -/

lemma np_where_lt (t_min t_max : ℚ) :
    ∀ (ta : List ℚ) (n : Nat), ∀ i ∈ np_where t_min t_max ta n, i < n + ta.length
  | [], n => by simp [np_where]
  | t :: ts, n => by
    intro i hi
    simp only [np_where] at hi
    by_cases hc : t_min ≤ t ∧ t ≤ t_max
    · rw [if_pos hc] at hi
      rcases List.mem_cons.mp hi with rfl | hi'
      · simp
      · have := np_where_lt t_min t_max ts (n + 1) i hi'
        simp only [List.length_cons]
        omega
    · rw [if_neg hc] at hi
      have := np_where_lt t_min t_max ts (n + 1) i hi
      simp only [List.length_cons]
      omega

lemma np_where_map_getD (t_min t_max : ℚ) :
    ∀ (ta : List ℚ) (n : Nat) (sp full : List ℚ),
      ta.length = sp.length →
      (∀ i, full.getD (n + i) 0 = sp.getD i 0) →
      (np_where t_min t_max ta n).map (fun i => full.getD i 0)
        = ((ta.zip sp).filter fun p => decide (t_min ≤ p.1 ∧ p.1 ≤ t_max)).map Prod.snd
  | [], n, sp, full, hlen, hidx => by simp [np_where]
  | t :: ts, n, sp, full, hlen, hidx => by
    cases sp with
    | nil => simp at hlen
    | cons s ss =>
      have hlen' : ts.length = ss.length := by simpa using hlen
      have hidx' : ∀ i, full.getD (n + 1 + i) 0 = ss.getD i 0 := by
        intro i
        have h := hidx (i + 1)
        rw [show n + (i + 1) = n + 1 + i by omega] at h
        simpa using h
      have hrec := np_where_map_getD t_min t_max ts (n + 1) ss full hlen' hidx'
      have h0 : full.getD n 0 = s := by simpa using hidx 0
      simp only [np_where, List.zip_cons_cons]
      by_cases hc : t_min ≤ t ∧ t ≤ t_max
      · rw [if_pos hc, List.map_cons, h0, hrec]
        simp [List.filter_cons, hc]
      · rw [if_neg hc, hrec]
        simp [List.filter_cons, hc]

lemma foldl_max_bounds : ∀ (xs : List ℚ) (a : ℚ),
    a ≤ xs.foldl max a ∧ ∀ v ∈ xs, v ≤ xs.foldl max a
  | [], a => ⟨le_rfl, by simp⟩
  | x :: xs, a => by
    simp only [List.foldl_cons]
    have ih := foldl_max_bounds xs (max a x)
    refine ⟨le_trans (le_max_left a x) ih.1, ?_⟩
    intro v hv
    rcases List.mem_cons.mp hv with rfl | hv'
    · exact le_trans (le_max_right a v) ih.1
    · exact ih.2 v hv'

lemma foldl_max_mem : ∀ (xs : List ℚ) (a : ℚ), xs.foldl max a = a ∨ xs.foldl max a ∈ xs
  | [], _ => Or.inl rfl
  | x :: xs, a => by
    simp only [List.foldl_cons]
    rcases foldl_max_mem xs (max a x) with heq | hmem
    · rcases max_choice a x with h | h
      · exact Or.inl (heq.trans h)
      · exact Or.inr (by rw [heq, h]; exact List.mem_cons_self x xs)
    · exact Or.inr (List.mem_cons_of_mem x hmem)

lemma foldl_min_bounds : ∀ (xs : List ℚ) (a : ℚ),
    xs.foldl min a ≤ a ∧ ∀ v ∈ xs, xs.foldl min a ≤ v
  | [], a => ⟨le_rfl, by simp⟩
  | x :: xs, a => by
    simp only [List.foldl_cons]
    have ih := foldl_min_bounds xs (min a x)
    refine ⟨le_trans ih.1 (min_le_left a x), ?_⟩
    intro v hv
    rcases List.mem_cons.mp hv with rfl | hv'
    · exact le_trans ih.1 (min_le_right a v)
    · exact ih.2 v hv'

lemma foldl_min_mem : ∀ (xs : List ℚ) (a : ℚ), xs.foldl min a = a ∨ xs.foldl min a ∈ xs
  | [], _ => Or.inl rfl
  | x :: xs, a => by
    simp only [List.foldl_cons]
    rcases foldl_min_mem xs (min a x) with heq | hmem
    · rcases min_choice a x with h | h
      · exact Or.inl (heq.trans h)
      · exact Or.inr (by rw [heq, h]; exact List.mem_cons_self x xs)
    · exact Or.inr (List.mem_cons_of_mem x hmem)

lemma np_max_spec (l : List ℚ) (hl : l ≠ []) : np_max l ∈ l ∧ ∀ v ∈ l, v ≤ np_max l := by
  cases l with
  | nil => exact absurd rfl hl
  | cons x xs =>
    simp only [np_max]
    constructor
    · rcases foldl_max_mem xs x with heq | hmem
      · rw [heq]
        exact List.mem_cons_self x xs
      · exact List.mem_cons_of_mem x hmem
    · intro v hv
      rcases List.mem_cons.mp hv with rfl | hv'
      · exact (foldl_max_bounds xs v).1
      · exact (foldl_max_bounds xs x).2 v hv'

lemma np_min_spec (l : List ℚ) (hl : l ≠ []) : np_min l ∈ l ∧ ∀ v ∈ l, np_min l ≤ v := by
  cases l with
  | nil => exact absurd rfl hl
  | cons x xs =>
    simp only [np_min]
    constructor
    · rcases foldl_min_mem xs x with heq | hmem
      · rw [heq]
        exact List.mem_cons_self x xs
      · exact List.mem_cons_of_mem x hmem
    · intro v hv
      rcases List.mem_cons.mp hv with rfl | hv'
      · exact (foldl_min_bounds xs v).1
      · exact (foldl_min_bounds xs x).2 v hv'

/-- C6: for every recorded point, the gated max and min are computed over exactly the
waveform samples whose time-axis value lies in the closed interval
`[t_min, t_max]`; when no time-axis sample lies in the gate, the point is recorded
with max = min = 0 and the call does not fail. -/
theorem c6_gating (time_axis spectrum : List ℚ) (t_min t_max : ℚ)
    (h : time_axis.length = spectrum.length) :
    add_point time_axis (.spectrum spectrum) t_min t_max
      = .ok (if gated_samples time_axis spectrum t_min t_max = [] then ((0 : ℚ), (0 : ℚ))
             else (np_max (gated_samples time_axis spectrum t_min t_max),
                   np_min (gated_samples time_axis spectrum t_min t_max)))
    ∧ (∀ v ∈ gated_samples time_axis spectrum t_min t_max,
        np_min (gated_samples time_axis spectrum t_min t_max) ≤ v
        ∧ v ≤ np_max (gated_samples time_axis spectrum t_min t_max))
    ∧ (gated_samples time_axis spectrum t_min t_max ≠ [] →
        np_max (gated_samples time_axis spectrum t_min t_max)
            ∈ gated_samples time_axis spectrum t_min t_max
        ∧ np_min (gated_samples time_axis spectrum t_min t_max)
            ∈ gated_samples time_axis spectrum t_min t_max) := by
  have hmap : (np_where t_min t_max time_axis 0).map (fun i => spectrum.getD i 0)
      = gated_samples time_axis spectrum t_min t_max :=
    np_where_map_getD t_min t_max time_axis 0 spectrum spectrum h
      (fun i => by rw [Nat.zero_add])
  by_cases hw : np_where t_min t_max time_axis 0 = []
  · have hgl : gated_samples time_axis spectrum t_min t_max = [] := by
      rw [← hmap, hw]
      rfl
    rw [hgl]
    refine ⟨?_, by simp, by simp⟩
    simp only [add_point, hw]
    simp
  · have hgl : gated_samples time_axis spectrum t_min t_max ≠ [] := by
      rw [← hmap]
      intro hcon
      exact hw (List.map_eq_nil_iff.mp hcon)
    have hall : (np_where t_min t_max time_axis 0).all
        (fun i => decide (i < spectrum.length)) = true := by
      rw [List.all_eq_true]
      intro i hi
      have := np_where_lt t_min t_max time_axis 0 i hi
      rw [Nat.zero_add, h] at this
      exact decide_eq_true this
    have hres : add_point time_axis (.spectrum spectrum) t_min t_max
        = .ok (np_max (gated_samples time_axis spectrum t_min t_max),
               np_min (gated_samples time_axis spectrum t_min t_max)) := by
      simp only [add_point, py_subscript, hall, if_true,
        List.length_pos.mpr hw, if_pos, hmap]
    refine ⟨?_, ?_, fun _ => ⟨(np_max_spec _ hgl).1, (np_min_spec _ hgl).1⟩⟩
    · rw [hres, if_neg hgl]
    · intro v hv
      exact ⟨(np_min_spec _ hgl).2 v hv, (np_max_spec _ hgl).2 v hv⟩

/-- C6 witness: the spec scenario of a length-4 waveform with gate `[1, 2]` over time
axis `[0, 1, 2, 3]`: only indices 1 and 2 are used, so max/min come from those two
samples only. -/
theorem c6_witness :
    ([0, 1, 2, 3] : List ℚ).length = ([10, 5, 7, 99] : List ℚ).length
    ∧ gated_samples [0, 1, 2, 3] [10, 5, 7, 99] 1 2 = [5, 7]
    ∧ add_point [0, 1, 2, 3] (.spectrum [10, 5, 7, 99]) 1 2 = .ok ((7 : ℚ), (5 : ℚ)) := by
  have hg : gated_samples [0, 1, 2, 3] [10, 5, 7, 99] 1 2 = [5, 7] := by
    with_unfolding_all decide
  have h := (c6_gating [0, 1, 2, 3] [10, 5, 7, 99] 1 2 rfl).1
  rw [hg] at h
  refine ⟨rfl, hg, h.trans ?_⟩
  rw [if_neg (by decide)]
  norm_num [np_max, np_min]

/-! Grid-binning lemmas. -/

lemma rec_step_out_of_range (cfg : ScanConfig) (g : Grids) (s : RecSample)
    (h : ¬(0 ≤ (cell_of cfg s.x s.y).1 ∧ (cell_of cfg s.x s.y).1 < cfg.y_steps
        ∧ 0 ≤ (cell_of cfg s.x s.y).2 ∧ (cell_of cfg s.x s.y).2 < cfg.x_steps)) :
    rec_step cfg g s = g := by
  simp only [rec_step]
  rw [if_neg h]

lemma reconstruct_unwritten (cfg : ScanConfig) (r c : Nat) :
    ∀ (samples : List RecSample) (g : Grids),
      g.peak_image r c = none → g.pp_image r c = none →
      (∀ t ∈ samples,
        (0 ≤ (cell_of cfg t.x t.y).1 ∧ (cell_of cfg t.x t.y).1 < cfg.y_steps
          ∧ 0 ≤ (cell_of cfg t.x t.y).2 ∧ (cell_of cfg t.x t.y).2 < cfg.x_steps) →
        ¬((cell_of cfg t.x t.y).1.toNat = r ∧ (cell_of cfg t.x t.y).2.toNat = c)) →
      (samples.foldl (rec_step cfg) g).peak_image r c = none
      ∧ (samples.foldl (rec_step cfg) g).pp_image r c = none
  | [], g, hpeak, hpp, _ => ⟨hpeak, hpp⟩
  | s :: rest, g, hpeak, hpp, hmiss => by
    simp only [List.foldl_cons]
    have hstep : (rec_step cfg g s).peak_image r c = none
        ∧ (rec_step cfg g s).pp_image r c = none := by
      by_cases hin : 0 ≤ (cell_of cfg s.x s.y).1 ∧ (cell_of cfg s.x s.y).1 < cfg.y_steps
          ∧ 0 ≤ (cell_of cfg s.x s.y).2 ∧ (cell_of cfg s.x s.y).2 < cfg.x_steps
      · have hne := hmiss s (List.mem_cons_self s rest) hin
        simp only [rec_step, if_pos hin]
        constructor
        · rw [write_cell, if_neg (fun hrc => hne ⟨hrc.1.symm, hrc.2.symm⟩)]
          exact hpeak
        · rw [write_cell, if_neg (fun hrc => hne ⟨hrc.1.symm, hrc.2.symm⟩)]
          exact hpp
      · rw [rec_step_out_of_range cfg g s hin]
        exact ⟨hpeak, hpp⟩
    exact reconstruct_unwritten cfg r c rest (rec_step cfg g s) hstep.1 hstep.2
      (fun t ht => hmiss t (List.mem_cons_of_mem s ht))

/-- C7: a sample's cell is `col = round((x - start_x)/step_x)`,
`row = round((y - start_y)/step_y)`; a sample whose rounded index on either axis
falls outside `[0, steps)` — including an index exactly equal to `steps` — writes
nothing to either grid (dropped, not clamped, with no error raised), and every cell
never written retains the missing-value sentinel. -/
theorem c7_grid_binning (cfg : ScanConfig) (g : Grids) (s : RecSample)
    (samples : List RecSample) (r c : Nat) :
    (¬(0 ≤ (cell_of cfg s.x s.y).1 ∧ (cell_of cfg s.x s.y).1 < cfg.y_steps
        ∧ 0 ≤ (cell_of cfg s.x s.y).2 ∧ (cell_of cfg s.x s.y).2 < cfg.x_steps) →
      rec_step cfg g s = g)
    ∧ ((cell_of cfg s.x s.y).1 = cfg.y_steps → rec_step cfg g s = g)
    ∧ ((cell_of cfg s.x s.y).2 = cfg.x_steps → rec_step cfg g s = g)
    ∧ ((∀ t ∈ samples,
         (0 ≤ (cell_of cfg t.x t.y).1 ∧ (cell_of cfg t.x t.y).1 < cfg.y_steps
           ∧ 0 ≤ (cell_of cfg t.x t.y).2 ∧ (cell_of cfg t.x t.y).2 < cfg.x_steps) →
         ¬((cell_of cfg t.x t.y).1.toNat = r ∧ (cell_of cfg t.x t.y).2.toNat = c)) →
       (reconstruct_images cfg samples).peak_image r c = none
       ∧ (reconstruct_images cfg samples).pp_image r c = none) := by
  refine ⟨rec_step_out_of_range cfg g s, fun hrow => ?_, fun hcol => ?_, fun hmiss => ?_⟩
  · refine rec_step_out_of_range cfg g s fun hin => ?_
    rw [hrow] at hin
    exact lt_irrefl _ hin.2.1
  · refine rec_step_out_of_range cfg g s fun hin => ?_
    rw [hcol] at hin
    exact lt_irrefl _ hin.2.2.2
  · exact reconstruct_unwritten cfg r c samples empty_grids rfl rfl hmiss

/-- C7 witness: on a 3 by 3 grid (`center=(0,0)`, extent 2, step 1) a sample at
`x = 2` rounds to column 3 — exactly `x_steps` — and is dropped: the binning step
leaves the grids untouched and every cell keeps the missing-value sentinel. -/
theorem c7_witness :
    cell_of ⟨0, 0, 2, 2, 1, 1, 0, 100, []⟩ 2 0 = ((1 : ℤ), (3 : ℤ))
    ∧ (⟨0, 0, 2, 2, 1, 1, 0, 100, []⟩ : ScanConfig).x_steps = 3
    ∧ rec_step ⟨0, 0, 2, 2, 1, 1, 0, 100, []⟩ empty_grids ⟨2, 0, 5, 1⟩ = empty_grids
    ∧ (reconstruct_images ⟨0, 0, 2, 2, 1, 1, 0, 100, []⟩ [⟨2, 0, 5, 1⟩]).peak_image 0 0
        = none
    ∧ (reconstruct_images ⟨0, 0, 2, 2, 1, 1, 0, 100, []⟩ [⟨2, 0, 5, 1⟩]).pp_image 1 1
        = none := by
  have h := c7_grid_binning ⟨0, 0, 2, 2, 1, 1, 0, 100, []⟩ empty_grids ⟨2, 0, 5, 1⟩
    [⟨2, 0, 5, 1⟩] 0 0
  have h' := c7_grid_binning ⟨0, 0, 2, 2, 1, 1, 0, 100, []⟩ empty_grids ⟨2, 0, 5, 1⟩
    [⟨2, 0, 5, 1⟩] 1 1
  refine ⟨by with_unfolding_all decide, by with_unfolding_all decide, ?_, ?_, ?_⟩
  · exact h.2.2.1 (by with_unfolding_all decide)
  · exact (h.2.2.2 (by with_unfolding_all decide)).1
  · exact (h'.2.2.2 (by with_unfolding_all decide)).2

/-! Scan-loop lemmas. -/

lemma add_point_ok (ta l : List ℚ) (t_min t_max : ℚ) (hlen : l.length = ta.length) :
    ∃ p : ℚ × ℚ, add_point ta (.spectrum l) t_min t_max = .ok p := by
  by_cases hnw : np_where t_min t_max ta 0 = []
  · exact ⟨(0, 0), by simp [add_point, hnw]⟩
  · have hall : (np_where t_min t_max ta 0).all (fun i => decide (i < l.length)) = true := by
      rw [List.all_eq_true]
      intro i hi
      have := np_where_lt t_min t_max ta 0 i hi
      rw [Nat.zero_add] at this
      exact decide_eq_true (by omega)
    refine ⟨(np_max ((np_where t_min t_max ta 0).map fun i => l.getD i 0),
             np_min ((np_where t_min t_max ta 0).map fun i => l.getD i 0)), ?_⟩
    simp only [add_point]
    rw [if_pos (List.length_pos.mpr hnw)]
    simp [py_subscript, hall]

/-- Events emitted by one non-crashing loop iteration carry at most one
`progress_updated` value; this extracts them. -/
def progress_of_events (E : List Event) : List ℤ :=
  E.filterMap fun e =>
    match e with
    | .progress_updated v => some v
    | _ => none

lemma progress_values_mk (E : List Event) (a b : Nat) (c d : Bool) :
    progress_values ⟨E, a, b, c, d⟩ = progress_of_events E := rfl

lemma progress_of_events_append (E F : List Event) :
    progress_of_events (E ++ F) = progress_of_events E ++ progress_of_events F :=
  List.filterMap_append ..

lemma process_point_fail (cfg : ScanConfig) (move_ok : Nat → Bool)
    (acquire : Nat → AcquireResult) (stop_flag : Nat → Bool)
    (E : List Event) (cur col : Nat) (i : Nat) (pt : Nat × Nat)
    (hs : stop_flag i = false) (hm : move_ok i = false) :
    process_point cfg move_ok acquire stop_flag ⟨E, cur, col, false, false⟩ i pt
      = ⟨E ++ [.position_updated (cfg.start_x + (pt.1 : ℚ) * cfg.step_x)
                (cfg.start_y + (pt.2 : ℚ) * cfg.step_y),
              .status_moving (cfg.start_x + (pt.1 : ℚ) * cfg.step_x)
                (cfg.start_y + (pt.2 : ℚ) * cfg.step_y),
              .status_move_failed (cfg.start_x + (pt.1 : ℚ) * cfg.step_x)
                (cfg.start_y + (pt.2 : ℚ) * cfg.step_y)],
         cur, col, false, false⟩ := by
  simp [process_point, hs, hm]

lemma process_point_succ (cfg : ScanConfig) (move_ok : Nat → Bool)
    (acquire : Nat → AcquireResult) (stop_flag : Nat → Bool)
    (E : List Event) (cur col : Nat) (i : Nat) (pt : Nat × Nat) (l : List ℚ)
    (hs : stop_flag i = false) (hm : move_ok i = true)
    (hal : acquire i = .spectrum l) (hlen : l.length = cfg.time_axis.length) :
    ∃ mx mn : ℚ,
      process_point cfg move_ok acquire stop_flag ⟨E, cur, col, false, false⟩ i pt
        = ⟨E ++ [.position_updated (cfg.start_x + (pt.1 : ℚ) * cfg.step_x)
                  (cfg.start_y + (pt.2 : ℚ) * cfg.step_y),
                .status_moving (cfg.start_x + (pt.1 : ℚ) * cfg.step_x)
                  (cfg.start_y + (pt.2 : ℚ) * cfg.step_y),
                .status_acquiring (cfg.start_x + (pt.1 : ℚ) * cfg.step_x)
                  (cfg.start_y + (pt.2 : ℚ) * cfg.step_y),
                .spectrum_acquired,
                .status_point (cfg.start_x + (pt.1 : ℚ) * cfg.step_x)
                  (cfg.start_y + (pt.2 : ℚ) * cfg.step_y) mx mn,
                .progress_updated (progress_of cfg (cur + 1))],
           cur + 1, col + 1, false, false⟩ := by
  obtain ⟨⟨mx, mn⟩, hp⟩ := add_point_ok cfg.time_axis l cfg.t_min cfg.t_max hlen
  refine ⟨mx, mn, ?_⟩
  simp [process_point, hs, hm, hal, is_py_none, hp, progress_of]

lemma process_points_spec (cfg : ScanConfig) (move_ok : Nat → Bool)
    (acquire : Nat → AcquireResult) (stop_flag : Nat → Bool)
    (hstop : ∀ i, stop_flag i = false)
    (hacq : ∀ i, ∃ l, acquire i = .spectrum l ∧ l.length = cfg.time_axis.length) :
    ∀ (pts : List (Nat × Nat)) (i : Nat) (E : List Event) (cur col : Nat),
      (process_points cfg move_ok acquire stop_flag pts i
          ⟨E, cur, col, false, false⟩).crashed = false
      ∧ (process_points cfg move_ok acquire stop_flag pts i
          ⟨E, cur, col, false, false⟩).halted = false
      ∧ (process_points cfg move_ok acquire stop_flag pts i
          ⟨E, cur, col, false, false⟩).current_point
          = cur + success_count move_ok i pts.length
      ∧ progress_values (process_points cfg move_ok acquire stop_flag pts i
          ⟨E, cur, col, false, false⟩)
          = progress_of_events E
            ++ (List.range (success_count move_ok i pts.length)).map
                (fun k => progress_of cfg (cur + k + 1))
  | [], i, E, cur, col => by
    simp [process_points, success_count, progress_values_mk]
  | pt :: rest, i, E, cur, col => by
    simp only [process_points]
    by_cases hm : move_ok i = true
    · obtain ⟨l, hal, hlen⟩ := hacq i
      obtain ⟨mx, mn, heq⟩ := process_point_succ cfg move_ok acquire stop_flag
        E cur col i pt l (hstop i) hm hal hlen
      rw [heq]
      have ih := process_points_spec cfg move_ok acquire stop_flag hstop hacq
        rest (i + 1)
        (E ++ [.position_updated (cfg.start_x + (pt.1 : ℚ) * cfg.step_x)
                  (cfg.start_y + (pt.2 : ℚ) * cfg.step_y),
                .status_moving (cfg.start_x + (pt.1 : ℚ) * cfg.step_x)
                  (cfg.start_y + (pt.2 : ℚ) * cfg.step_y),
                .status_acquiring (cfg.start_x + (pt.1 : ℚ) * cfg.step_x)
                  (cfg.start_y + (pt.2 : ℚ) * cfg.step_y),
                .spectrum_acquired,
                .status_point (cfg.start_x + (pt.1 : ℚ) * cfg.step_x)
                  (cfg.start_y + (pt.2 : ℚ) * cfg.step_y) mx mn,
                .progress_updated (progress_of cfg (cur + 1))])
        (cur + 1) (col + 1)
      refine ⟨ih.1, ih.2.1, ?_, ?_⟩
      · rw [ih.2.2.1]
        simp only [List.length_cons, success_count, hm, if_true]
        omega
      · rw [ih.2.2.2, progress_of_events_append]
        have hsingle : progress_of_events
            [Event.position_updated (cfg.start_x + (pt.1 : ℚ) * cfg.step_x)
                (cfg.start_y + (pt.2 : ℚ) * cfg.step_y),
              Event.status_moving (cfg.start_x + (pt.1 : ℚ) * cfg.step_x)
                (cfg.start_y + (pt.2 : ℚ) * cfg.step_y),
              Event.status_acquiring (cfg.start_x + (pt.1 : ℚ) * cfg.step_x)
                (cfg.start_y + (pt.2 : ℚ) * cfg.step_y),
              Event.spectrum_acquired,
              Event.status_point (cfg.start_x + (pt.1 : ℚ) * cfg.step_x)
                (cfg.start_y + (pt.2 : ℚ) * cfg.step_y) mx mn,
              Event.progress_updated (progress_of cfg (cur + 1))]
            = [progress_of cfg (cur + 1)] := by
          simp [progress_of_events]
        rw [hsingle]
        simp only [List.length_cons, success_count, hm, if_true]
        rw [Nat.add_comm 1 (success_count move_ok (i + 1) rest.length),
          List.range_succ_eq_map, List.map_cons, List.map_map, List.append_assoc]
        refine congrArg (progress_of_events E ++ ·) ?_
        rw [List.singleton_append]
        refine congrArg₂ List.cons (by rw [Nat.add_zero]) ?_
        refine List.map_congr_left fun k _ => ?_
        simp only [Function.comp_apply]
        exact congrArg (progress_of cfg) (by omega)
    · have hmf : move_ok i = false := by simpa using hm
      rw [process_point_fail cfg move_ok acquire stop_flag E cur col i pt (hstop i) hmf]
      have ih := process_points_spec cfg move_ok acquire stop_flag hstop hacq
        rest (i + 1)
        (E ++ [.position_updated (cfg.start_x + (pt.1 : ℚ) * cfg.step_x)
                (cfg.start_y + (pt.2 : ℚ) * cfg.step_y),
              .status_moving (cfg.start_x + (pt.1 : ℚ) * cfg.step_x)
                (cfg.start_y + (pt.2 : ℚ) * cfg.step_y),
              .status_move_failed (cfg.start_x + (pt.1 : ℚ) * cfg.step_x)
                (cfg.start_y + (pt.2 : ℚ) * cfg.step_y)])
        cur col
      refine ⟨ih.1, ih.2.1, ?_, ?_⟩
      · rw [ih.2.2.1]
        simp [success_count, hmf]
      · rw [ih.2.2.2, progress_of_events_append]
        have hnil : progress_of_events
            [Event.position_updated (cfg.start_x + (pt.1 : ℚ) * cfg.step_x)
                (cfg.start_y + (pt.2 : ℚ) * cfg.step_y),
              Event.status_moving (cfg.start_x + (pt.1 : ℚ) * cfg.step_x)
                (cfg.start_y + (pt.2 : ℚ) * cfg.step_y),
              Event.status_move_failed (cfg.start_x + (pt.1 : ℚ) * cfg.step_x)
                (cfg.start_y + (pt.2 : ℚ) * cfg.step_y)]
            = [] := by
          simp [progress_of_events]
        rw [hnil, List.append_nil]
        simp [success_count, hmf]

lemma progress_values_eq (st : RunState) :
    progress_values st = progress_of_events st.events := rfl

/-- C2 counterexample: a 2-point scan (`width=1`, `height=0`, steps 1) whose first
point's move fails: only one progress value is ever emitted, with value 50, and the
run — though it completes — never reaches progress 100; the failed point advanced
neither counter, refuting the claim that failures still advance the point counter
and that such a run ends with progress 100. -/
theorem c2_counterexample :
    progress_values (scan_run ⟨0, 0, 1, 0, 1, 1, 0, 100, [0, 1]⟩
        (fun i => decide (i = 1)) (fun _ => .spectrum [1, 2]) (fun _ => false)) = [50]
    ∧ (scan_run ⟨0, 0, 1, 0, 1, 1, 0, 100, [0, 1]⟩
        (fun i => decide (i = 1)) (fun _ => .spectrum [1, 2])
        (fun _ => false)).current_point = 1
    ∧ (scan_run ⟨0, 0, 1, 0, 1, 1, 0, 100, [0, 1]⟩
        (fun i => decide (i = 1)) (fun _ => .spectrum [1, 2])
        (fun _ => false)).collected_points = 1
    ∧ (scan_run ⟨0, 0, 1, 0, 1, 1, 0, 100, [0, 1]⟩
        (fun i => decide (i = 1)) (fun _ => .spectrum [1, 2])
        (fun _ => false)).events.getLast? = some (.scan_completed true)
    ∧ (progress_values (scan_run ⟨0, 0, 1, 0, 1, 1, 0, 100, [0, 1]⟩
        (fun i => decide (i = 1)) (fun _ => .spectrum [1, 2])
        (fun _ => false))).getLast? ≠ some 100 := by
  with_unfolding_all decide

/-- C2 (amended): the point counter is advanced and
`floor(current_point / total_points * 100)` is emitted only after points whose move
succeeded (and whose acquisition returned a well-formed waveform); a point skipped by
the per-point failure policy advances neither the counter nor the progress value, so
a run containing failed points ends with final progress strictly below 100. -/
theorem c2_progress_only_on_success (cfg : ScanConfig) (move_ok : Nat → Bool)
    (acquire : Nat → AcquireResult) (stop_flag : Nat → Bool)
    (hw : 0 ≤ cfg.width) (hh : 0 ≤ cfg.height)
    (hsx : 0 < cfg.step_x) (hsy : 0 < cfg.step_y)
    (hstop : ∀ i, stop_flag i = false)
    (hacq : ∀ i, ∃ l, acquire i = .spectrum l ∧ l.length = cfg.time_axis.length) :
    progress_values (scan_run cfg move_ok acquire stop_flag)
      = (List.range (success_count move_ok 0
            (cfg.y_steps.toNat * cfg.x_steps.toNat))).map
          (fun k => ⌊((k + 1 : Nat) : ℚ) / (cfg.total_points : ℚ) * 100⌋)
    ∧ (scan_run cfg move_ok acquire stop_flag).current_point
        = success_count move_ok 0 (cfg.y_steps.toNat * cfg.x_steps.toNat)
    ∧ (success_count move_ok 0 (cfg.y_steps.toNat * cfg.x_steps.toNat)
          < cfg.y_steps.toNat * cfg.x_steps.toNat →
        ∀ p ∈ progress_values (scan_run cfg move_ok acquire stop_flag), p < 100) := by
  have hx0 : (0 : ℚ) ≤ cfg.width / cfg.step_x := div_nonneg hw hsx.le
  have hy0 : (0 : ℚ) ≤ cfg.height / cfg.step_y := div_nonneg hh hsy.le
  have hx1 : 1 ≤ cfg.x_steps := by
    unfold ScanConfig.x_steps
    rw [pyInt_eq_floor _ hx0]
    have := Int.floor_nonneg.mpr hx0
    omega
  have hy1 : 1 ≤ cfg.y_steps := by
    unfold ScanConfig.y_steps
    rw [pyInt_eq_floor _ hy0]
    have := Int.floor_nonneg.mpr hy0
    omega
  have hT1 : 1 ≤ cfg.total_points := by
    unfold ScanConfig.total_points
    nlinarith
  have hTQ : (0 : ℚ) < (cfg.total_points : ℚ) := by
    have : (0 : ℤ) < cfg.total_points := by omega
    exact_mod_cast this
  have hN : ((cfg.y_steps.toNat * cfg.x_steps.toNat : ℕ) : ℤ) = cfg.total_points := by
    unfold ScanConfig.total_points
    push_cast [Int.toNat_of_nonneg (by omega : (0 : ℤ) ≤ cfg.x_steps),
      Int.toNat_of_nonneg (by omega : (0 : ℤ) ≤ cfg.y_steps)]
    ring
  have hloop := process_points_spec cfg move_ok acquire stop_flag hstop hacq
    (scan_path cfg.x_steps.toNat cfg.y_steps.toNat) 0 [.status_start_humidity] 0 0
  rw [scan_path_length] at hloop
  have hpv : progress_values (scan_run cfg move_ok acquire stop_flag)
      = progress_values (process_points cfg move_ok acquire stop_flag
          (scan_path cfg.x_steps.toNat cfg.y_steps.toNat) 0
          ⟨[.status_start_humidity], 0, 0, false, false⟩) := by
    simp only [scan_run, initial_run_state]
    simp only [hloop.1, hloop.2.1, Bool.false_eq_true, if_false]
    rw [progress_values_mk, progress_of_events_append]
    have hnil2 : progress_of_events [Event.status_end_humidity, Event.scan_completed true]
        = [] := by
      simp [progress_of_events]
    rw [hnil2, List.append_nil, ← progress_values_eq]
  have hcur : (scan_run cfg move_ok acquire stop_flag).current_point
      = (process_points cfg move_ok acquire stop_flag
          (scan_path cfg.x_steps.toNat cfg.y_steps.toNat) 0
          ⟨[.status_start_humidity], 0, 0, false, false⟩).current_point := by
    simp only [scan_run, initial_run_state]
    simp only [hloop.1, hloop.2.1, Bool.false_eq_true, if_false]
  have hconv : ∀ k : ℕ, progress_of cfg (0 + k + 1)
      = ⌊((k + 1 : Nat) : ℚ) / (cfg.total_points : ℚ) * 100⌋ := by
    intro k
    rw [show 0 + k + 1 = k + 1 from by omega]
    unfold progress_of
    refine pyInt_eq_floor _ ?_
    refine mul_nonneg (div_nonneg (by positivity) hTQ.le) (by norm_num)
  have h1 : progress_values (scan_run cfg move_ok acquire stop_flag)
      = (List.range (success_count move_ok 0
            (cfg.y_steps.toNat * cfg.x_steps.toNat))).map
          (fun k => ⌊((k + 1 : Nat) : ℚ) / (cfg.total_points : ℚ) * 100⌋) := by
    rw [hpv, hloop.2.2.2]
    have hnil : progress_of_events [Event.status_start_humidity] = [] := by
      simp [progress_of_events]
    rw [hnil, List.nil_append]
    exact List.map_congr_left fun k _ => hconv k
  refine ⟨h1, ?_, ?_⟩
  · rw [hcur, hloop.2.2.1]
    omega
  · intro hlt p hp
    rw [h1] at hp
    obtain ⟨k, hk, rfl⟩ := List.mem_map.mp hp
    have hk' : k < success_count move_ok 0 (cfg.y_steps.toNat * cfg.x_steps.toNat) :=
      List.mem_range.mp hk
    have hk1 : (k + 1 : ℕ) < cfg.y_steps.toNat * cfg.x_steps.toNat := by omega
    have hQ : ((k + 1 : Nat) : ℚ) < (cfg.total_points : ℚ) := by
      rw [← hN]
      exact_mod_cast hk1
    refine Int.floor_lt.mpr ?_
    have hd : ((k + 1 : Nat) : ℚ) / (cfg.total_points : ℚ) < 1 := (div_lt_one hTQ).mpr hQ
    calc ((k + 1 : Nat) : ℚ) / (cfg.total_points : ℚ) * 100
        < 1 * 100 := mul_lt_mul_of_pos_right hd (by norm_num)
      _ = ((100 : ℤ) : ℚ) := by norm_num

/-- C2 witness: the same 2-point plan with every move succeeding emits exactly the
progress values 50 and 100 and ends with the counter at 2. -/
theorem c2_amended_witness :
    progress_values (scan_run ⟨0, 0, 1, 0, 1, 1, 0, 100, [0, 1]⟩
        (fun _ => true) (fun _ => .spectrum [1, 2]) (fun _ => false)) = [50, 100]
    ∧ (scan_run ⟨0, 0, 1, 0, 1, 1, 0, 100, [0, 1]⟩
        (fun _ => true) (fun _ => .spectrum [1, 2])
        (fun _ => false)).current_point = 2 := by
  have h := c2_progress_only_on_success ⟨0, 0, 1, 0, 1, 1, 0, 100, [0, 1]⟩
    (fun _ => true) (fun _ => .spectrum [1, 2]) (fun _ => false)
    (by norm_num) (by norm_num) (by norm_num) (by norm_num)
    (fun _ => rfl) (fun _ => ⟨[1, 2], rfl, rfl⟩)
  exact ⟨h.1.trans (by with_unfolding_all decide),
    h.2.1.trans (by with_unfolding_all decide)⟩

/-- C1: run of `ScanThread.run` at a failing input — a 1-point scan whose move
succeeds and whose acquisition fails (`acquire_spectrum` returns `False`, not
`None`): the `spectrum is None` guard does not fire, `add_point` subscripts the
Python `False` and raises `TypeError`, and the run aborts with
`scan_completed(False, ...)` instead of logging the acquisition failure, skipping
the point and completing — the loop never reaches the end of the path. -/
theorem c1_acquire_failure_aborts_run :
    (scan_run ⟨85, 140, 0, 0, 1, 1, 0, 100, [0, 1]⟩ (fun _ => true)
        (fun _ => .pyFalse) (fun _ => false)).crashed = true
    ∧ (scan_run ⟨85, 140, 0, 0, 1, 1, 0, 100, [0, 1]⟩ (fun _ => true)
        (fun _ => .pyFalse) (fun _ => false)).events
        = [.status_start_humidity, .position_updated 85 140, .status_moving 85 140,
           .status_acquiring 85 140, .spectrum_acquired, .scan_completed false]
    ∧ (scan_run ⟨85, 140, 0, 0, 1, 1, 0, 100, [0, 1]⟩ (fun _ => true)
        (fun _ => .pyFalse) (fun _ => false)).collected_points = 0
    ∧ progress_values (scan_run ⟨85, 140, 0, 0, 1, 1, 0, 100, [0, 1]⟩ (fun _ => true)
        (fun _ => .pyFalse) (fun _ => false)) = [] := by
  with_unfolding_all decide

end THzScan
